import Mathlib

/-!
# Verification of the ooh-togglie feature-flag service core

Shallow embedding of the core logic of the `edge-api-worker-rs` Cloudflare
Worker (`src/edge-api-worker-rs/index.ts`) and of the Upstash-backed rate
limiter (`src/unnamed/part_001`):

* the hash bucketer and rollout evaluator (the `POST /v1/evaluate` handler),
* the fixed-window admission controller (`rateLimit`, both the in-memory
  variant of `index.ts` and the Redis-backed variant of `part_001`),
* the flag repository operations (`POST /v1/flags`, `PUT /v1/flags/{key}`),
* the authentication guard (`apiKeyMatches`).

JavaScript strings are modelled as lists of UTF-16 code units (`List Nat`),
JavaScript 32-bit signed integer coercion (`| 0`, `<<`) as `toInt32`,
SQLite tables as Lean lists, and the external counter store as an
association list.  Handlers are modelled as pure state-passing functions
that additionally emit the list of store operations they perform, in order.
-/

namespace OohTogglie

/-! ## JavaScript 32-bit arithmetic -/

/-- JavaScript `ToInt32`: reduce an integer into `[-2^31, 2^31)`, as performed
by the `| 0` and `<<` operators. -/
def toInt32 (x : Int) : Int := (x + 2 ^ 31) % 2 ^ 32 - 2 ^ 31

/-- One step of the evaluate handler's string hash:
`a => (((a << 5) - a) + c) | 0`.  `a << 5` is itself a 32-bit operation
(`toInt32 (a * 32)`); the subtraction and addition are exact and the final
`| 0` reduces back to 32 bits. -/
def hashStep (a : Int) (c : Nat) : Int := toInt32 (toInt32 (a * 32) - a + c)

/-- The reduce `[...uid].reduce((a, ch) => (((a << 5) - a) + ch.charCodeAt(0)) | 0, 0)`
from the `POST /v1/evaluate` handler: a signed 32-bit hash of the code units
of the user identifier. -/
def jsStringHash (uid : List Nat) : Int := uid.foldl hashStep 0

/-- The absolute value `Math.abs(jsStringHash uid)` — the stable non-negative hash of the
identifier, a pure function of the code-unit list alone. -/
def stableHash (uid : List Nat) : Nat := (jsStringHash uid).natAbs

/-- The residue `Math.abs(hash) % 100` — the rollout bucket of a user identifier, in
`[0, 100)`. -/
def bucket (uid : List Nat) : Nat := stableHash uid % 100

/-! ## Rollout evaluator -/

/-- The clamp `Math.max(0, Math.min(100, pct))` — defensive clamping of the configured
rollout percentage (`Number(c.env.ROLLOUT_PCT ?? 10)`). -/
def clampPct (p : Int) : Int := max 0 (min 100 p)

/-- The row `SELECT key, enabled, version FROM flags` used by the evaluate
handler (`FlagEvalRow` in the source; sqlite's `0/1` column is modelled as
`Bool`). -/
structure FlagEvalRow where
  key : String
  enabled : Bool
  version : Nat
deriving DecidableEq, Repr

/-- The evaluation decision returned by `POST /v1/evaluate`
(`{key, enabled, version, reason}`). -/
structure Decision where
  key : String
  enabled : Bool
  version : Nat
  reason : String
deriving DecidableEq, Repr

/-- The decision computation of the `POST /v1/evaluate` handler
(lines 524–534 of `index.ts`):
`pct = clamp(ROLLOUT_PCT)`, `hash = |jsStringHash uid| % 100`,
`enabled = !!flag.enabled && hash < pct`, reason string `rollout_{pct}%`. -/
def decideFlag (flag : FlagEvalRow) (uid : List Nat) (rolloutPct : Int) : Decision :=
  let pct := clampPct rolloutPct
  { key := flag.key
    enabled := flag.enabled && decide ((bucket uid : Int) < pct)
    version := flag.version
    reason := "rollout_" ++ toString pct ++ "%" }

/-- The code units of the literal `'anon'` used as the fallback identifier. -/
def anonUid : List Nat := [97, 110, 111, 110]

/-- The assignment `const uid = user?.id ?? 'anon'` — the fallback applies exactly when the
user id is absent (`null`/`undefined`), never to a present empty string. -/
def resolveUid (userId : Option (List Nat)) : List Nat := userId.getD anonUid

/-! ## Basic facts about the bucketer -/

theorem bucket_lt_100 (uid : List Nat) : bucket uid < 100 :=
  Nat.mod_lt _ (by norm_num)

theorem clampPct_eq_self {p : Int} (h0 : 0 ≤ p) (h1 : p ≤ 100) : clampPct p = p := by
  unfold clampPct
  rw [min_eq_right h1, max_eq_right h0]

/-! ## Admission controller -/

/-- The record returned by both `rateLimit` implementations:
`{ ok, count, resetUnix }`. -/
structure RLResult where
  ok : Bool
  count : Nat
  resetUnix : Nat
deriving DecidableEq, Repr

/-- The expression `Math.ceil(Date.now() / 1000)` on a natural millisecond clock. -/
def ceilSec (nowMs : Nat) : Nat := (nowMs + 999) / 1000

/-- The fail-open / disabled result both limiters return:
`{ ok: true, count: 0, resetUnix: Math.ceil(Date.now()/1000) + windowSec }`. -/
def failOpenResult (nowMs windowSec : Nat) : RLResult :=
  { ok := true, count := 0, resetUnix := ceilSec nowMs + windowSec }

/-- The fixed-window bucket key `rl:${key}:${windowId}` with
`windowId = Math.floor(Math.floor(nowMs/1000) / windowSec)`. -/
def windowKey (nowMs : Nat) (key : String) (windowSec : Nat) : String :=
  "rl:" ++ key ++ ":" ++ toString (nowMs / 1000 / windowSec)

namespace Mem

/-- A value of the in-memory `rlBuckets` map of `index.ts`. -/
structure RLBucket where
  count : Nat
  resetUnix : Nat
deriving DecidableEq, Repr

/-- The in-memory `rlBuckets : Map<string, {count, resetUnix}>`, modelled as
an association list. -/
abbrev RLState := List (String × RLBucket)

/-- The lookup `rlBuckets.get(bucketKey)`. -/
def rlGet (st : RLState) (k : String) : Option RLBucket :=
  (st.find? (fun p => p.1 == k)).map Prod.snd

/-- The write `rlBuckets.set(bucketKey, b)`: replace the binding if present, else add it. -/
def rlSet (st : RLState) (k : String) (b : RLBucket) : RLState :=
  if st.any (fun p => p.1 == k) then
    st.map (fun p => if p.1 == k then (k, b) else p)
  else st ++ [(k, b)]

/-- The in-memory `rateLimit` of `index.ts` (lines 119–143): disabled switch,
first request creates the bucket with count 1 and `ok = true`, later requests
increment and are allowed iff `count <= limit`.  The mutation of the module
map `rlBuckets` is made explicit state passing. -/
def rateLimit (disableRL : Bool) (nowMs : Nat) (st : RLState) (key : String)
    (limit windowSec : Nat) : RLResult × RLState :=
  if disableRL then (failOpenResult nowMs windowSec, st)
  else
    let windowId := nowMs / 1000 / windowSec
    let bucketKey := windowKey nowMs key windowSec
    let resetUnix := windowId * windowSec + windowSec
    match rlGet st bucketKey with
    | none =>
        ({ ok := true, count := 1, resetUnix := resetUnix },
         rlSet st bucketKey ⟨1, resetUnix⟩)
    | some b =>
        let c := b.count + 1
        ({ ok := decide (c ≤ limit), count := c, resetUnix := b.resetUnix },
         rlSet st bucketKey ⟨c, b.resetUnix⟩)

end Mem

namespace Redis

/-- The external Upstash counter store of `src/unnamed/part_001`, modelled as
a key → count map (an absent key counts as 0, as Redis `INCR` treats it). -/
structure Store where
  counts : List (String × Nat)
deriving DecidableEq, Repr

/-- The current count stored under a key (0 when absent). -/
def countOf (s : Store) (k : String) : Nat :=
  ((s.counts.find? (fun p => p.1 == k)).map Prod.snd).getD 0

/-- Store a count under a key (canonical finite-map update). -/
def setCount (s : Store) (k : String) (n : Nat) : Store :=
  ⟨(k, n) :: s.counts.filter (fun p => p.1 != k)⟩

/-- Redis `INCR`: atomically increment the counter and return the new value.
The `expire(windowKey, windowSec)` call sets a TTL only and never changes the
count within the window, so it is not modelled. -/
def incr (s : Store) (k : String) : Nat × Store :=
  let n := countOf s k + 1
  (n, setCount s k n)

/-- The connection configuration: whether the Upstash URL/token env vars are
set, and whether the remote `incr` call succeeds (an `up = false` call is the
`try`/`catch`-caught failure). -/
structure Conn where
  configured : Bool
  up : Bool
deriving DecidableEq, Repr

/-- The Redis-backed `rateLimit` of `src/unnamed/part_001` (lines 64–89):
disabled switch and missing configuration both return the fail-open result;
a throwing `incr` is caught and also returns the fail-open result; otherwise
the window counter is incremented and `ok = count <= limit`. -/
def rateLimit (disableRL : Bool) (conn : Conn) (nowMs : Nat) (store : Store)
    (key : String) (limit windowSec : Nat) : RLResult × Store :=
  if disableRL then (failOpenResult nowMs windowSec, store)
  else if !conn.configured then (failOpenResult nowMs windowSec, store)
  else if !conn.up then (failOpenResult nowMs windowSec, store)
  else
    let wk := windowKey nowMs key windowSec
    let (count, store') := incr store wk
    let resetUnix := (nowMs / 1000 / windowSec) * windowSec + windowSec
    ({ ok := decide (count ≤ limit), count := count, resetUnix := resetUnix }, store')

/-- Run `n` successive admission checks (same caller, same window) through
the enabled Redis limiter, threading the counter store. -/
def runReqs (conn : Conn) (nowMs : Nat) (key : String) (limit windowSec : Nat)
    (s : Store) : Nat → Store
  | 0 => s
  | n + 1 =>
      (rateLimit false conn nowMs (runReqs conn nowMs key limit windowSec s n)
        key limit windowSec).2

/-- The result seen by the `k`-th request (1-based) in a run of successive
admission checks. -/
def nthResult (conn : Conn) (nowMs : Nat) (key : String) (limit windowSec : Nat)
    (s : Store) (k : Nat) : RLResult :=
  (rateLimit false conn nowMs (runReqs conn nowMs key limit windowSec s (k - 1))
    key limit windowSec).1

end Redis

/-! ## Request context and authentication -/

/-- The parts of the Hono context `c` the flag handlers consult: the
`x-api-key` and `cf-connecting-ip` request headers (empty string when the
header is missing, as `c.req.header(...) || ''` treats them), the `API_KEY`
and `EDGE_API_KEY` env secrets (empty string when unset), the rate-limit
configuration `Number(RL_LIMIT ?? 60)` / `Number(RL_WINDOW ?? 60)` /
`DISABLE_RATE_LIMIT === '1'`, the rollout percentage
`Number(ROLLOUT_PCT ?? 10)`, and the current time. -/
structure Ctx where
  sentApiKey : String
  apiKey : String
  edgeApiKey : String
  callerIp : String
  disableRL : Bool
  rlLimit : Nat
  rlWindow : Nat
  rolloutPct : Int
  nowMs : Nat
deriving Repr

/-- The configured secret `c.env.API_KEY || c.env.EDGE_API_KEY || ''`. -/
def wantKey (c : Ctx) : String := if c.apiKey != "" then c.apiKey else c.edgeApiKey

/-- The guard `apiKeyMatches` (lines 93–97): the sent header and the configured secret
must both be non-empty and equal. -/
def apiKeyMatches (c : Ctx) : Bool :=
  (c.sentApiKey != "") && (wantKey c != "") && (c.sentApiKey == wantKey c)

/-- Caller identity for rate limiting:
`c.req.header('x-api-key') || c.req.header('cf-connecting-ip') || 'anon'`. -/
def caller (c : Ctx) : String :=
  if c.sentApiKey != "" then c.sentApiKey
  else if c.callerIp != "" then c.callerIp
  else "anon"

/-! ## Flag repository -/

/-- A row of the sqlite `flags` table (`FlagRow` in the source).  The
`enabled INTEGER 0/1` column is modelled as `Bool` and the
`updated_at TEXT (datetime('now'))` column as a natural timestamp. -/
structure FlagRow where
  id : String
  key : String
  description : Option String
  enabled : Bool
  version : Nat
  updated_at : Nat
deriving DecidableEq, Repr

/-- The `flags` table. -/
abbrev DB := List FlagRow

/-- The query `SELECT ... FROM flags WHERE key = ? LIMIT 1`. -/
def findFlag (db : DB) (key : String) : Option FlagRow :=
  db.find? (fun r => r.key == key)

/-- Projection to the columns the evaluate handler selects. -/
def toEvalRow (r : FlagRow) : FlagEvalRow := ⟨r.key, r.enabled, r.version⟩

/-- A store operation performed by a handler, in program order:
an admission-controller check (counter increment), a flag-table read, or a
flag-table write. -/
inductive Effect
  | rlCheck
  | dbRead
  | dbWrite
deriving DecidableEq, Repr

/-! ## POST /v1/evaluate -/

/-- The terminal states of the evaluate handler. -/
inductive EvalResponse
  | unauthorized
  | tooMany (retryAfter : Nat)
  | notFound
  | evaluated (d : Decision)
deriving DecidableEq, Repr

/-- The `POST /v1/evaluate` handler (lines 507–537): auth guard, admission
check on `eval:{caller}`, flag lookup, pure decision.  Returns the response,
the updated in-memory rate-limit state, and the ordered list of store
operations performed. -/
def evaluateHandler (c : Ctx) (flagKey : String) (userId : Option (List Nat))
    (db : DB) (rl : Mem.RLState) : EvalResponse × Mem.RLState × List Effect :=
  if !apiKeyMatches c then (.unauthorized, rl, [])
  else
    match Mem.rateLimit c.disableRL c.nowMs rl ("eval:" ++ caller c) c.rlLimit c.rlWindow with
    | (res, rl2) =>
      if !res.ok then (.tooMany c.rlWindow, rl2, [.rlCheck])
      else
        match findFlag db flagKey with
        | none => (.notFound, rl2, [.rlCheck, .dbRead])
        | some f =>
            (.evaluated (decideFlag (toEvalRow f) (resolveUid userId) c.rolloutPct),
             rl2, [.rlCheck, .dbRead])

/-! ## POST /v1/flags -/

/-- The terminal states of the create handler. -/
inductive CreateResponse
  | unauthorized
  | created (f : FlagRow)
  | conflict
deriving DecidableEq, Repr

/-- The `POST /v1/flags` handler (lines 407–443): auth guard, then
`INSERT INTO flags (...) VALUES (?, ?, ?, ?, 1, datetime('now'))` followed by
a read-back `SELECT`.  A duplicate `key` trips the table's `UNIQUE`
constraint, which the handler catches and turns into a 409 Conflict, leaving
the table untouched.  `newId` is the fresh `crypto.randomUUID()`; an omitted
body `enabled` arrives here as `false` (`body.enabled ? 1 : 0`). -/
def createHandler (c : Ctx) (newId key : String) (description : Option String)
    (enabled : Bool) (now : Nat) (db : DB) : CreateResponse × DB × List Effect :=
  if !apiKeyMatches c then (.unauthorized, db, [])
  else if db.any (fun r => r.key == key) then (.conflict, db, [.dbWrite])
  else
    (.created ((findFlag (db ++ [⟨newId, key, description, enabled, 1, now⟩]) key).getD
        ⟨newId, key, description, enabled, 1, now⟩),
     db ++ [⟨newId, key, description, enabled, 1, now⟩], [.dbWrite, .dbRead])

/-! ## PUT /v1/flags/{key} -/

/-- The terminal states of the patch handler. -/
inductive PatchResponse
  | unauthorized
  | notFound
  | updated (f : FlagRow)
deriving DecidableEq, Repr

/-- The per-row effect of
`UPDATE flags SET description = COALESCE(?, description),
enabled = COALESCE(?, enabled), version = version + 1,
updated_at = datetime('now')`: a provided field overwrites, an omitted (or
explicit-null) field coalesces with the existing value, and `version` and
`updated_at` are bumped unconditionally. -/
def applyPatch (r : FlagRow) (description : Option String)
    (enabled : Option Bool) (now : Nat) : FlagRow :=
  { r with
    description := match description with
      | some d => some d
      | none => r.description
    enabled := enabled.getD r.enabled
    version := r.version + 1
    updated_at := now }

/-- The `UPDATE ... WHERE key = ?` statement over the whole table. -/
def updateFlags (db : DB) (key : String) (description : Option String)
    (enabled : Option Bool) (now : Nat) : DB :=
  db.map (fun r => if r.key == key then applyPatch r description enabled now else r)

/-- The `PUT /v1/flags/{key}` handler (lines 461–489): auth guard, then the
coalescing `UPDATE` (a no-op on an absent key), then a read-back `SELECT`;
a missing row yields 404.  Both `description: null` and an omitted
`description` are bound as SQL NULL (`patch.description ?? null`), so both
are `none` here; likewise `enabled`. -/
def patchHandler (c : Ctx) (key : String) (description : Option String)
    (enabled : Option Bool) (now : Nat) (db : DB) :
    PatchResponse × DB × List Effect :=
  if !apiKeyMatches c then (.unauthorized, db, [])
  else
    match findFlag (updateFlags db key description enabled now) key with
    | none => (.notFound, updateFlags db key description enabled now, [.dbWrite, .dbRead])
    | some r => (.updated r, updateFlags db key description enabled now, [.dbWrite, .dbRead])

/-! ## Claim theorems: the rollout evaluator -/

/-- C1: For every flag, userId string, and rollout percentage pct in [0,100],
the evaluate operation computes `bucket = stableHash(userId) mod 100`, a value
in [0,100), and returns `decision.enabled = flag.enabled AND bucket < pct`,
with reason string `rollout_{pct}%`. -/
theorem evaluate_rollout_formula (flag : FlagEvalRow) (uid : List Nat) (pct : Int)
    (h0 : 0 ≤ pct) (h1 : pct ≤ 100) :
    bucket uid = stableHash uid % 100 ∧ bucket uid < 100 ∧
    (decideFlag flag uid pct).enabled
      = (flag.enabled && decide ((bucket uid : Int) < pct)) ∧
    (decideFlag flag uid pct).reason = "rollout_" ++ toString pct ++ "%" := by
  refine ⟨rfl, bucket_lt_100 uid, ?_, ?_⟩ <;>
    simp [decideFlag, clampPct_eq_self h0 h1]

theorem evaluate_rollout_formula_witness :
    (0 : Int) ≤ 37 ∧ (37 : Int) ≤ 100 ∧
    (decideFlag ⟨"welcome_banner", true, 1⟩ [119] 37).reason
      = "rollout_" ++ toString (37 : Int) ++ "%" :=
  ⟨by norm_num, by norm_num,
   (evaluate_rollout_formula ⟨"welcome_banner", true, 1⟩ [119] 37
     (by norm_num) (by norm_num)).2.2.2⟩

/-- C2: The rollout decision is deterministic: two calls of the rollout
evaluator with identical flag state, identical rollout percentage and
identical userId return equal decisions, and the hash depends only on the
identifier string — `decideFlag` and `stableHash` take no time or randomness
input at all. -/
theorem rollout_deterministic (f₁ f₂ : FlagEvalRow) (u₁ u₂ : List Nat) (p₁ p₂ : Int)
    (hf : f₁ = f₂) (hu : u₁ = u₂) (hp : p₁ = p₂) :
    decideFlag f₁ u₁ p₁ = decideFlag f₂ u₂ p₂ ∧ stableHash u₁ = stableHash u₂ := by
  subst hf; subst hu; subst hp; exact ⟨rfl, rfl⟩

theorem rollout_deterministic_witness :
    decideFlag ⟨"welcome_banner", true, 3⟩ [117, 49] 50
      = decideFlag ⟨"welcome_banner", true, 3⟩ [117, 49] 50 ∧
    stableHash [117, 49] = stableHash [117, 49] :=
  rollout_deterministic ⟨"welcome_banner", true, 3⟩ ⟨"welcome_banner", true, 3⟩
    [117, 49] [117, 49] 50 50 rfl rfl rfl

/-- C3: At the rollout bounds: for every flag and every userId, rolloutPct =
100 gives `decision.enabled = flag.enabled`, and rolloutPct = 0 gives
`decision.enabled = false`. -/
theorem rollout_bounds (f : FlagEvalRow) (u : List Nat) :
    (decideFlag f u 100).enabled = f.enabled ∧ (decideFlag f u 0).enabled = false := by
  constructor
  · have hb : (bucket u : Int) < 100 := by exact_mod_cast bucket_lt_100 u
    have hc : clampPct 100 = 100 := by norm_num [clampPct]
    simp [decideFlag, hc, hb]
  · have hb : ¬ ((bucket u : Int) < 0) := by
      simp only [not_lt]
      exact Int.natCast_nonneg _
    have hc : clampPct 0 = 0 := by norm_num [clampPct]
    simp [decideFlag, hc, hb]

/-- C10: The `anon` fallback applies only when the user id is absent, not
when it is the empty string: a present empty-string userId is hashed as-is,
its bucket is 0, so an enabled flag evaluates to `enabled = true` for every
rolloutPct ≥ 1 and to `false` at rolloutPct = 0. -/
theorem empty_userid_hashed_as_is (f : FlagEvalRow) (p : Int) (hf : f.enabled = true) :
    resolveUid (some []) = [] ∧ resolveUid none = anonUid ∧ bucket [] = 0 ∧
    (1 ≤ p → (decideFlag f [] p).enabled = true) ∧
    (decideFlag f [] 0).enabled = false := by
  refine ⟨rfl, rfl, rfl, ?_, ?_⟩
  · intro hp
    have hcl : (0 : Int) < clampPct p :=
      calc (0 : Int) < 1 := by norm_num
        _ ≤ min 100 p := le_min (by norm_num) hp
        _ ≤ max 0 (min 100 p) := le_max_right _ _
    have hb : ((bucket [] : Nat) : Int) = 0 := by norm_num [bucket, stableHash, jsStringHash]
    simp [decideFlag, hf, hb, hcl]
  · have hc : clampPct 0 = 0 := by norm_num [clampPct]
    have hb : ((bucket [] : Nat) : Int) = 0 := by norm_num [bucket, stableHash, jsStringHash]
    simp [decideFlag, hc, hb]

theorem empty_userid_hashed_as_is_witness :
    (decideFlag ⟨"welcome_banner", true, 1⟩ [] 50).enabled = true :=
  (empty_userid_hashed_as_is ⟨"welcome_banner", true, 1⟩ 50 rfl).2.2.2.1 (by norm_num)

/-! ## Claim theorems: the admission controller -/

/-- C5: Fail-open: whenever the counter store is unreachable (`incr` throws),
misconfigured (no Upstash URL/token), or rate limiting is explicitly
disabled, the admission check returns
`allowed = true, count = 0, resetUnixTime = now + windowSeconds` and leaves
the counter store untouched; the caught store failure is converted into this
default instead of being propagated as an error (the in-memory variant's
disabled switch behaves identically on its state). -/
theorem admission_fail_open (disableRL : Bool) (conn : Redis.Conn) (nowMs : Nat)
    (store : Redis.Store) (key : String) (limit windowSec : Nat) (st : Mem.RLState)
    (h : disableRL = true ∨ conn.configured = false ∨ conn.up = false) :
    Redis.rateLimit disableRL conn nowMs store key limit windowSec
      = (failOpenResult nowMs windowSec, store) ∧
    Mem.rateLimit true nowMs st key limit windowSec
      = (failOpenResult nowMs windowSec, st) := by
  refine ⟨?_, rfl⟩
  rcases h with h | h | h
  · subst h; rfl
  · cases disableRL <;> simp [Redis.rateLimit, h]
  · cases disableRL <;> cases hc : conn.configured <;> simp [Redis.rateLimit, h, hc]

theorem admission_fail_open_witness :
    Redis.rateLimit false ⟨false, true⟩ 1000 ⟨[]⟩ "caller" 60 60
      = (failOpenResult 1000 60, ⟨[]⟩) ∧
    Mem.rateLimit true 1000 [] "caller" 60 60 = (failOpenResult 1000 60, []) :=
  admission_fail_open false ⟨false, true⟩ 1000 ⟨[]⟩ "caller" 60 60 []
    (Or.inr (Or.inl rfl))

/-- Storing a count makes it the current count for that key. -/
theorem countOf_setCount (s : Redis.Store) (k : String) (n : Nat) :
    Redis.countOf (Redis.setCount s k n) k = n := by
  simp [Redis.countOf, Redis.setCount, List.find?]

/-- Shape of an enabled, reachable Redis admission check: the window counter
is incremented and `ok` is exactly `count ≤ limit`. -/
theorem rateLimit_enabled (conn : Redis.Conn) (hc : conn.configured = true)
    (hu : conn.up = true) (nowMs : Nat) (st : Redis.Store) (key : String)
    (limit windowSec : Nat) :
    Redis.rateLimit false conn nowMs st key limit windowSec =
      ({ ok := decide (Redis.countOf st (windowKey nowMs key windowSec) + 1 ≤ limit),
         count := Redis.countOf st (windowKey nowMs key windowSec) + 1,
         resetUnix := nowMs / 1000 / windowSec * windowSec + windowSec },
       Redis.setCount st (windowKey nowMs key windowSec)
         (Redis.countOf st (windowKey nowMs key windowSec) + 1)) := by
  simp [Redis.rateLimit, Redis.incr, hc, hu]

/-- After `n` enabled admission checks the window counter has grown by `n`. -/
theorem countOf_runReqs (conn : Redis.Conn) (hc : conn.configured = true)
    (hu : conn.up = true) (nowMs : Nat) (key : String) (limit windowSec : Nat)
    (s : Redis.Store) (n : Nat) :
    Redis.countOf (Redis.runReqs conn nowMs key limit windowSec s n)
        (windowKey nowMs key windowSec)
      = Redis.countOf s (windowKey nowMs key windowSec) + n := by
  induction n with
  | zero => rfl
  | succ n ih =>
      show Redis.countOf
        (Redis.rateLimit false conn nowMs
          (Redis.runReqs conn nowMs key limit windowSec s n) key limit windowSec).2
        (windowKey nowMs key windowSec) = _
      rw [rateLimit_enabled conn hc hu, countOf_setCount, ih]
      omega

/-- In a fresh window, the `k`-th request sees count `k` and is allowed
exactly when `k ≤ limit`. -/
theorem nthResult_eq (conn : Redis.Conn) (hc : conn.configured = true)
    (hu : conn.up = true) (nowMs : Nat) (key : String) (limit windowSec : Nat)
    (s : Redis.Store)
    (hfresh : Redis.countOf s (windowKey nowMs key windowSec) = 0)
    (k : Nat) (hk : 1 ≤ k) :
    Redis.nthResult conn nowMs key limit windowSec s k =
      { ok := decide (k ≤ limit), count := k,
        resetUnix := nowMs / 1000 / windowSec * windowSec + windowSec } := by
  have h1 : Redis.countOf (Redis.runReqs conn nowMs key limit windowSec s (k - 1))
      (windowKey nowMs key windowSec) + 1 = k := by
    rw [countOf_runReqs conn hc hu, hfresh]
    omega
  unfold Redis.nthResult
  rw [rateLimit_enabled conn hc hu, h1]

/-- C4: Admission counting within one fixed window: the first request gets
count 1 and is only ever rejected when limit = 0; each request `k` sees the
incremented count `k` and is allowed iff `k ≤ limit`; hence for every
sequence of `N ≤ limit` requests in one window all `N` are allowed, and the
`(N+1)`-th is denied when `limit < N+1`. -/
theorem admission_window_counting (conn : Redis.Conn) (nowMs : Nat) (key : String)
    (limit windowSec : Nat) (s : Redis.Store)
    (hc : conn.configured = true) (hu : conn.up = true)
    (hfresh : Redis.countOf s (windowKey nowMs key windowSec) = 0) :
    (Redis.nthResult conn nowMs key limit windowSec s 1).count = 1 ∧
    ((Redis.nthResult conn nowMs key limit windowSec s 1).ok = false → limit = 0) ∧
    (∀ k, 1 ≤ k →
      (Redis.nthResult conn nowMs key limit windowSec s k).count = k ∧
      ((Redis.nthResult conn nowMs key limit windowSec s k).ok = true ↔ k ≤ limit)) ∧
    (∀ N, N ≤ limit → ∀ k, 1 ≤ k → k ≤ N →
      (Redis.nthResult conn nowMs key limit windowSec s k).ok = true) ∧
    (∀ N, N ≤ limit → limit < N + 1 →
      (Redis.nthResult conn nowMs key limit windowSec s (N + 1)).ok = false) := by
  have hres := nthResult_eq conn hc hu nowMs key limit windowSec s hfresh
  refine ⟨?_, ?_, ?_, ?_, ?_⟩
  · rw [hres 1 le_rfl]
  · rw [hres 1 le_rfl]
    simp only [decide_eq_false_iff_not, not_le]
    omega
  · intro k hk
    rw [hres k hk]
    simp
  · intro N hN k hk hkN
    rw [hres k hk]
    simp only [decide_eq_true_eq]
    omega
  · intro N hN hlt
    rw [hres (N + 1) (Nat.le_add_left 1 N)]
    simp only [decide_eq_false_iff_not, not_le]
    omega

theorem admission_window_counting_witness :
    (Redis.nthResult ⟨true, true⟩ 0 "caller" 2 60 ⟨[]⟩ 2).ok = true ∧
    (Redis.nthResult ⟨true, true⟩ 0 "caller" 2 60 ⟨[]⟩ 3).ok = false :=
  ⟨(admission_window_counting ⟨true, true⟩ 0 "caller" 2 60 ⟨[]⟩ rfl rfl
      rfl).2.2.2.1 2 (by norm_num) 2 (by norm_num) (by norm_num),
   (admission_window_counting ⟨true, true⟩ 0 "caller" 2 60 ⟨[]⟩ rfl rfl
      rfl).2.2.2.2 2 (by norm_num) (by norm_num)⟩

/-! ## Claim theorems: authentication frame property -/

/-- C9: Auth short-circuit frame property: a request whose `x-api-key`
credential is missing or does not match the configured secret is answered
`Unauthorized` by the evaluate, create and patch handlers without any
counter increment or database read/write — the rate-limit state and the flag
store are returned unchanged and the effect trace is empty. -/
theorem auth_short_circuit (c : Ctx) (fk : String) (u : Option (List Nat)) (db : DB)
    (rl : Mem.RLState) (nid k : String) (d : Option String) (e : Bool)
    (eo : Option Bool) (now : Nat)
    (h : c.sentApiKey = "" ∨ c.sentApiKey ≠ wantKey c) :
    evaluateHandler c fk u db rl = (.unauthorized, rl, []) ∧
    createHandler c nid k d e now db = (.unauthorized, db, []) ∧
    patchHandler c k d eo now db = (.unauthorized, db, []) := by
  have hm : apiKeyMatches c = false := by
    rcases h with h | h <;> simp [apiKeyMatches, h]
  exact ⟨by simp [evaluateHandler, hm], by simp [createHandler, hm],
         by simp [patchHandler, hm]⟩

theorem auth_short_circuit_witness :
    evaluateHandler
        ⟨"wrong-key", "secretkey", "", "", false, 60, 60, 10, 0⟩ "f" none [] []
      = (.unauthorized, [], []) ∧
    createHandler
        ⟨"wrong-key", "secretkey", "", "", false, 60, 60, 10, 0⟩ "i" "k" none false 0 []
      = (.unauthorized, [], []) ∧
    patchHandler
        ⟨"wrong-key", "secretkey", "", "", false, 60, 60, 10, 0⟩ "k" none none 0 []
      = (.unauthorized, [], []) :=
  auth_short_circuit ⟨"wrong-key", "secretkey", "", "", false, 60, 60, 10, 0⟩
    "f" none [] [] "i" "k" none false none 0 (Or.inr (by decide))

/-! ## Repository lemmas -/

theorem applyPatch_key (r : FlagRow) (d : Option String) (e : Option Bool) (now : Nat) :
    (applyPatch r d e now).key = r.key := rfl

theorem findFlag_cons (r : FlagRow) (rest : DB) (key : String) :
    findFlag (r :: rest) key
      = if (r.key == key) = true then some r else findFlag rest key := by
  unfold findFlag
  rw [List.find?_cons]
  cases h : (r.key == key) with
  | true => rfl
  | false => rfl

theorem updateFlags_cons (r : FlagRow) (rest : DB) (key : String)
    (d : Option String) (e : Option Bool) (now : Nat) :
    updateFlags (r :: rest) key d e now
      = (if (r.key == key) = true then applyPatch r d e now else r)
        :: updateFlags rest key d e now := rfl

/-- Looking a key up after the coalescing `UPDATE` returns the patched
version of whatever the lookup returned before. -/
theorem findFlag_updateFlags (db : DB) (key : String) (d : Option String)
    (e : Option Bool) (now : Nat) :
    findFlag (updateFlags db key d e now) key
      = (findFlag db key).map (fun r => applyPatch r d e now) := by
  induction db with
  | nil => rfl
  | cons r rest ih =>
      rw [updateFlags_cons, findFlag_cons r rest key]
      by_cases h : (r.key == key) = true
      · rw [if_pos h, if_pos h]
        rw [findFlag_cons, if_pos (by rw [applyPatch_key]; exact h)]
        rfl
      · rw [if_neg h, if_neg h]
        rw [findFlag_cons, if_neg h]
        exact ih

/-- An `UPDATE ... WHERE key = ?` on an absent key leaves the table as it was. -/
theorem updateFlags_of_none (db : DB) (key : String) (d : Option String)
    (e : Option Bool) (now : Nat) (h : findFlag db key = none) :
    updateFlags db key d e now = db := by
  induction db with
  | nil => rfl
  | cons r rest ih =>
      rw [findFlag_cons] at h
      by_cases hr : (r.key == key) = true
      · rw [if_pos hr] at h; exact absurd h (by simp)
      · rw [if_neg hr] at h
        rw [updateFlags_cons, if_neg hr, ih h]

theorem any_key_false_of_findFlag_none (db : DB) (key : String)
    (h : findFlag db key = none) : db.any (fun r => r.key == key) = false := by
  induction db with
  | nil => rfl
  | cons r rest ih =>
      rw [findFlag_cons] at h
      by_cases hr : (r.key == key) = true
      · rw [if_pos hr] at h; exact absurd h (by simp)
      · rw [if_neg hr] at h
        simp only [Bool.not_eq_true] at hr
        simp [List.any_cons, hr, ih h]

theorem any_key_true_of_findFlag_some (db : DB) (key : String) (old : FlagRow)
    (h : findFlag db key = some old) : db.any (fun r => r.key == key) = true := by
  have h' : db.find? (fun r => r.key == key) = some old := h
  have hp := List.find?_some h'
  have hmem := List.mem_of_find?_eq_some h'
  exact List.any_eq_true.mpr ⟨old, hmem, hp⟩

/-- Appending a fresh row with the sought key makes it the lookup result. -/
theorem findFlag_append_single_of_none (db : DB) (r : FlagRow) (key : String)
    (h : findFlag db key = none) (hk : (r.key == key) = true) :
    findFlag (db ++ [r]) key = some r := by
  induction db with
  | nil =>
      show findFlag (r :: []) key = some r
      rw [findFlag_cons, if_pos hk]
  | cons x rest ih =>
      rw [findFlag_cons] at h
      by_cases hx : (x.key == key) = true
      · rw [if_pos hx] at h; exact absurd h (by simp)
      · rw [if_neg hx] at h
        show findFlag (x :: (rest ++ [r])) key = some r
        rw [findFlag_cons, if_neg hx]
        exact ih h

/-! ## Claim theorems: flag lifecycle -/

/-- C7: Patch semantics: on an existing flag, each provided field overwrites,
each omitted field coalesces with the existing value (a null never
overwrites), `version` becomes old version + 1 and `updated_at` becomes now
unconditionally — even when no provided value differs; patch on an absent
key returns NotFound (and the no-op `UPDATE` leaves the table unchanged). -/
theorem patch_semantics (c : Ctx) (key : String) (d : Option String)
    (e : Option Bool) (now : Nat) (db : DB) (hauth : apiKeyMatches c = true) :
    (∀ old, findFlag db key = some old →
      patchHandler c key d e now db
        = (.updated (applyPatch old d e now), updateFlags db key d e now,
           [.dbWrite, .dbRead]) ∧
      (applyPatch old d e now).version = old.version + 1 ∧
      (applyPatch old d e now).updated_at = now ∧
      (applyPatch old d e now).description
        = (match d with | some s => some s | none => old.description) ∧
      (applyPatch old d e now).enabled = e.getD old.enabled ∧
      (applyPatch old d e now).id = old.id ∧
      (applyPatch old d e now).key = old.key) ∧
    (findFlag db key = none →
      patchHandler c key d e now db = (.notFound, db, [.dbWrite, .dbRead])) := by
  constructor
  · intro old hold
    have hfind : findFlag (updateFlags db key d e now) key
        = some (applyPatch old d e now) := by
      rw [findFlag_updateFlags, hold]
      rfl
    refine ⟨?_, rfl, rfl, rfl, rfl, rfl, rfl⟩
    simp [patchHandler, hauth, hfind]
  · intro hnone
    have hup := updateFlags_of_none db key d e now hnone
    simp [patchHandler, hauth, hup, hnone]

theorem patch_semantics_witness :
    patchHandler ⟨"secretkey", "secretkey", "", "", false, 60, 60, 10, 0⟩
        "welcome_banner" none (some true) 7
        [⟨"id-1", "welcome_banner", some "d", false, 1, 0⟩]
      = (.updated ⟨"id-1", "welcome_banner", some "d", true, 2, 7⟩,
         [⟨"id-1", "welcome_banner", some "d", true, 2, 7⟩],
         [.dbWrite, .dbRead]) :=
  ((patch_semantics ⟨"secretkey", "secretkey", "", "", false, 60, 60, 10, 0⟩
      "welcome_banner" none (some true) 7
      [⟨"id-1", "welcome_banner", some "d", false, 1, 0⟩] (by decide)).1
    ⟨"id-1", "welcome_banner", some "d", false, 1, 0⟩ (by decide)).1

/-- C8: Create conflict atomicity: creating a new key inserts the record
with version 1; creating an already-existing key fails with Conflict and
returns the table entirely unchanged (in particular the existing record and
its version are unaltered). -/
theorem create_semantics (c : Ctx) (nid key : String) (d : Option String)
    (e : Bool) (now : Nat) (db : DB) (hauth : apiKeyMatches c = true) :
    (findFlag db key = none →
      createHandler c nid key d e now db
        = (.created ⟨nid, key, d, e, 1, now⟩, db ++ [⟨nid, key, d, e, 1, now⟩],
           [.dbWrite, .dbRead])) ∧
    (∀ old, findFlag db key = some old →
      createHandler c nid key d e now db = (.conflict, db, [.dbWrite]) ∧
      findFlag ((createHandler c nid key d e now db).2.1) key = some old) := by
  constructor
  · intro hnone
    have hany := any_key_false_of_findFlag_none db key hnone
    have hfind := findFlag_append_single_of_none db ⟨nid, key, d, e, 1, now⟩ key hnone
      (by simp)
    simp [createHandler, hauth, hany, hfind]
  · intro old hold
    have hany := any_key_true_of_findFlag_some db key old hold
    constructor
    · simp [createHandler, hauth, hany]
    · simp [createHandler, hauth, hany, hold]

theorem create_semantics_witness :
    createHandler ⟨"secretkey", "secretkey", "", "", false, 60, 60, 10, 0⟩
        "id-2" "welcome_banner" none false 3
        [⟨"id-1", "welcome_banner", none, false, 7, 0⟩]
      = (.conflict, [⟨"id-1", "welcome_banner", none, false, 7, 0⟩], [.dbWrite]) :=
  ((create_semantics ⟨"secretkey", "secretkey", "", "", false, 60, 60, 10, 0⟩
      "id-2" "welcome_banner" none false 3
      [⟨"id-1", "welcome_banner", none, false, 7, 0⟩] (by decide)).2
    ⟨"id-1", "welcome_banner", none, false, 7, 0⟩ (by decide)).1

/-! ## Claim theorems: admission check ordering -/

/-- C6 counterexample: an authenticated flag create and an authenticated flag
patch both reach the flag store without ever consulting the admission
controller — their effect traces contain a store write and no `rlCheck`,
refuting "every flag create and every flag patch performs the Admission
Controller check before its store operation" at these concrete requests. -/
theorem create_patch_skip_admission_counterexample :
    (createHandler ⟨"secretkey", "secretkey", "", "", false, 60, 60, 10, 0⟩
        "id-1" "k1" none false 0 []).2.2 = [Effect.dbWrite, Effect.dbRead] ∧
    Effect.rlCheck ∉
      (createHandler ⟨"secretkey", "secretkey", "", "", false, 60, 60, 10, 0⟩
        "id-1" "k1" none false 0 []).2.2 ∧
    (patchHandler ⟨"secretkey", "secretkey", "", "", false, 60, 60, 10, 0⟩
        "k1" none none 1 [⟨"id-1", "k1", none, false, 1, 0⟩]).2.2
      = [Effect.dbWrite, Effect.dbRead] ∧
    Effect.rlCheck ∉
      (patchHandler ⟨"secretkey", "secretkey", "", "", false, 60, 60, 10, 0⟩
        "k1" none none 1 [⟨"id-1", "k1", none, false, 1, 0⟩]).2.2 := by
  decide

/-- C6 (amended): only the evaluate call consumes the admission check before
its store operation — an authenticated evaluate performs the `rlCheck` first,
and a denied (RateLimited) evaluate performs no flag-store read or write;
the flag create and flag patch handlers perform no admission check at all. -/
theorem admission_check_order (c : Ctx) (fk : String) (u : Option (List Nat)) (db : DB)
    (rl : Mem.RLState) (nid k : String) (d : Option String) (e : Bool)
    (eo : Option Bool) (now : Nat) :
    (apiKeyMatches c = true →
      (evaluateHandler c fk u db rl).2.2.head? = some Effect.rlCheck) ∧
    (∀ w, (evaluateHandler c fk u db rl).1 = EvalResponse.tooMany w →
      (evaluateHandler c fk u db rl).2.2 = [Effect.rlCheck]) ∧
    Effect.rlCheck ∉ (createHandler c nid k d e now db).2.2 ∧
    Effect.rlCheck ∉ (patchHandler c k d eo now db).2.2 := by
  rcases hres :
      Mem.rateLimit c.disableRL c.nowMs rl ("eval:" ++ caller c) c.rlLimit c.rlWindow
    with ⟨res, rl2⟩
  refine ⟨?_, ?_, ?_, ?_⟩
  · intro h
    unfold evaluateHandler
    rw [h, if_neg (by simp), hres]
    cases hok : res.ok
    · simp [hok]
    · cases hf : findFlag db fk <;> simp [hok, hf]
  · intro w hw
    by_cases h : apiKeyMatches c = true
    · unfold evaluateHandler at hw ⊢
      rw [h, if_neg (by simp), hres] at hw ⊢
      cases hok : res.ok
      · simp [hok]
      · simp only [hok] at hw
        cases hf : findFlag db fk <;> simp [hf] at hw
    · have hm : apiKeyMatches c = false := by simpa using h
      unfold evaluateHandler at hw
      rw [hm] at hw
      simp at hw
  · unfold createHandler
    split
    · simp
    · split
      · simp
      · simp
  · unfold patchHandler
    split
    · simp
    · split
      · simp
      · simp

theorem admission_check_order_witness :
    (evaluateHandler ⟨"secretkey", "secretkey", "", "", false, 60, 60, 10, 0⟩
        "f" none [] []).2.2.head? = some Effect.rlCheck ∧
    (evaluateHandler ⟨"secretkey", "secretkey", "", "", false, 0, 60, 10, 0⟩
        "f" none [] [("rl:eval:secretkey:0", ⟨1, 60⟩)]).2.2 = [Effect.rlCheck] :=
  ⟨(admission_check_order ⟨"secretkey", "secretkey", "", "", false, 60, 60, 10, 0⟩
      "f" none [] [] "i" "k" none false none 0).1 (by decide),
   (admission_check_order ⟨"secretkey", "secretkey", "", "", false, 0, 60, 10, 0⟩
      "f" none [] [("rl:eval:secretkey:0", ⟨1, 60⟩)] "i" "k" none false none 0).2.1
     60 (by decide)⟩

end OohTogglie
